import Mathlib

/-!
Shallow embedding of the simulation core of `game-101-capstone/script.js`
(Neon Drift: Survival Sprint).

Conventions of the embedding:
* JS numbers are modelled by `ℚ` for physics quantities and by `ℤ` for the
  integer-valued run counters (score, lives, combo, level, thresholds).
* `Math.random()` values are passed in explicitly as parameters (each call
  site of the source gets its own draw), so every function is deterministic.
* `Math.sqrt` is abstracted as an explicit function parameter `sqrtA : ℚ → ℚ`;
  no theorem below assumes anything about it, so the results hold for the
  real square root in particular.
* DOM / audio / announcement side effects are dropped: they do not touch the
  simulation state.
-/

namespace NeonDrift

/-- `clamp(value, min, max) = Math.max(min, Math.min(max, value))`. -/
def clamp (value lo hi : ℚ) : ℚ :=
  max lo (min hi value)

/-- `rand(min, max) = Math.random() * (max - min) + min`, with the
`Math.random()` draw `u` passed explicitly. -/
def rand (u lo hi : ℚ) : ℚ :=
  u * (hi - lo) + lo

/-- `distSq(ax, ay, bx, by)`. -/
def distSq (ax ay bx b_y : ℚ) : ℚ :=
  (ax - bx) * (ax - bx) + (ay - b_y) * (ay - b_y)

/-- `aabbCollide(ax, ay, as, bx, by, bs)`: axis-aligned bounding-box overlap
test between two squares given by top-left corner and side length. -/
def aabbCollide (ax ay asz bx b_y bsz : ℚ) : Bool :=
  !(decide (ax + asz < bx) || decide (ax > bx + bsz) ||
    decide (ay + asz < b_y) || decide (ay > b_y + bsz))

/-- Playfield dimensions (`state.bounds`). -/
structure Bounds where
  w : ℚ
  h : ℚ
deriving Repr

/-- Player physics state (`state.player`).  The tunable constants
(`speed`, `maxSpeed`, `friction`, dash cooldown and burst) are fixed values
in the source and are modelled as the top-level constants below. -/
structure Player where
  x : ℚ
  y : ℚ
  vx : ℚ
  vy : ℚ
  size : ℚ
  lastDashAt : ℚ
deriving Repr

/-- `state.player.speed = 0.55` (acceleration force per frame). -/
def playerSpeed : ℚ := 11/20

/-- `state.player.maxSpeed = 5.2`. -/
def maxSpeed : ℚ := 26/5

/-- `state.player.friction = 0.88`. -/
def friction : ℚ := 22/25

/-- `state.player.dash.cooldownMs = 900`. -/
def dashCooldownMs : ℚ := 900

/-- `state.player.dash.burst = 9.0`. -/
def dashBurst : ℚ := 9

/-- The collectible orb (`state.orb`); its size is the constant `orbSize`. -/
structure Orb where
  x : ℚ
  y : ℚ
deriving Repr

/-- `state.orb.size = 18`. -/
def orbSize : ℚ := 18

/-- Enemy types: `'normal' | 'fast' | 'heavy'`. -/
inductive EnemyType where
  | normal
  | fast
  | heavy
deriving DecidableEq, Repr

/-- One pool slot (`state.enemies[i]`); the DOM element handle is dropped. -/
structure Enemy where
  active : Bool
  x : ℚ
  y : ℚ
  vx : ℚ
  vy : ℚ
  size : ℚ
  type : EnemyType
deriving DecidableEq, Repr

/-- `state.enemyPoolSize = 22`. -/
def enemyPoolSize : ℕ := 22

/-- The inactive slot pushed by `initEnemyPool` for each pool index. -/
def freshEnemySlot : Enemy :=
  { active := false, x := -999, y := -999, vx := 0, vy := 0,
    size := 18, type := EnemyType.normal }

/-- `initEnemyPool()`: the pool is a fixed-length sequence of
`enemyPoolSize` inactive slots. -/
def initEnemyPool : List Enemy :=
  List.replicate enemyPoolSize freshEnemySlot

/-- Difficulty / run counters (`state.difficulty`). -/
structure Difficulty where
  level : ℤ
  score : ℤ
  lives : ℤ
  combo : ℤ
  best : ℤ
  spawnIntervalMs : ℚ
  lastSpawnAt : ℚ
  enemyBaseSpeed : ℚ
  nextLevelAt : ℤ
deriving DecidableEq, Repr

/-- Input intent (`state.input`). -/
structure Input where
  up : Bool
  down : Bool
  left : Bool
  right : Bool
  dash : Bool
  mouseX : ℚ
  mouseY : ℚ
  hasMouse : Bool
deriving Repr

/-- Application phases (`state.phase`). -/
inductive Phase where
  | start
  | how
  | play
  | pause
  | settings
  | over
deriving DecidableEq, Repr

/-- `scaleDifficultyOnScore()`: level up when the score has reached the
threshold; recompute the threshold, raise the enemy base speed (capped at
4.2), lower the spawn interval (floored at 420). -/
def scaleDifficultyOnScore (d : Difficulty) : Difficulty :=
  if d.nextLevelAt ≤ d.score then
    { d with
      level := d.level + 1,
      nextLevelAt := Rat.floor ((d.nextLevelAt : ℚ) * (27/20) + 120),
      enemyBaseSpeed := min (21/5) (d.enemyBaseSpeed + 3/20),
      spawnIntervalMs := max 420 (d.spawnIntervalMs - 40) }
  else d

/-- Enemy type choice in `spawnEnemy` (lines 334-337): one shared
`Math.random()` draw `roll`; `fast` when `level >= 4 && roll < 0.25`,
overridden to `heavy` when `level >= 6 && roll > 0.86`. -/
def chooseType (level : ℤ) (roll : ℚ) : EnemyType :=
  let t := if 4 ≤ level ∧ roll < 1/4 then EnemyType.fast else EnemyType.normal
  if 6 ≤ level ∧ roll > 43/50 then EnemyType.heavy else t

/-- The field values `spawnEnemy` writes into the activated slot.  `old` is
the slot being reused: the source leaves `x`/`y` untouched when the edge
index falls outside `0..3` (unreachable for a draw in `[0,1)`, but kept for
faithfulness). -/
def mkSpawnedEnemy (sqrtA : ℚ → ℚ) (roll edgeU posU jitterU : ℚ) (b : Bounds)
    (p : Player) (d : Difficulty) (old : Enemy) : Enemy :=
  let type := chooseType d.level roll
  let size : ℚ := if type = EnemyType.heavy then 24 else 18
  let margin : ℚ := 20
  let edge := Rat.floor (rand edgeU 0 4)
  let pos : ℚ × ℚ :=
    if edge = 0 then (rand posU margin (b.w - margin), -margin)
    else if edge = 1 then (b.w + margin, rand posU margin (b.h - margin))
    else if edge = 2 then (rand posU margin (b.w - margin), b.h + margin)
    else if edge = 3 then (-margin, rand posU margin (b.h - margin))
    else (old.x, old.y)
  let dx := p.x - pos.1
  let dy := p.y - pos.2
  let len := max (1/1000) (sqrtA (dx * dx + dy * dy))
  let speed0 := d.enemyBaseSpeed + rand jitterU (-1/5) (1/5)
  let speed := speed0 *
    (if type = EnemyType.fast then 27/20
     else if type = EnemyType.heavy then 17/20 else 1)
  { active := true, x := pos.1, y := pos.2,
    vx := dx / len * speed, vy := dy / len * speed,
    size := size, type := type }

/-- `state.enemies.find(e => !e.active)` followed by the in-place mutation:
replace the first inactive slot by `mk` applied to it, or return `none`
when every slot is active. -/
def spawnIntoPool (mk : Enemy → Enemy) : List Enemy → Option (List Enemy)
  | [] => none
  | e :: es =>
    if e.active then (spawnIntoPool mk es).map (fun tail => e :: tail)
    else some (mk e :: es)

/-- `spawnEnemy(now)`: activate the first inactive slot; when the pool is
saturated, return with nothing changed (in particular `lastSpawnAt` is not
updated); otherwise record `lastSpawnAt = now`. -/
def spawnEnemy (sqrtA : ℚ → ℚ) (roll edgeU posU jitterU now : ℚ) (b : Bounds)
    (p : Player) (es : List Enemy) (d : Difficulty) : List Enemy × Difficulty :=
  match spawnIntoPool (mkSpawnedEnemy sqrtA roll edgeU posU jitterU b p d) es with
  | none => (es, d)
  | some es' => (es', { d with lastSpawnAt := now })

/-- The gate of `maybeSpawnEnemies`: `now - d.lastSpawnAt >= d.spawnIntervalMs`. -/
def spawnTimerDue (d : Difficulty) (now : ℚ) : Prop :=
  d.spawnIntervalMs ≤ now - d.lastSpawnAt

instance instDecSpawnTimerDue (d : Difficulty) (now : ℚ) :
    Decidable (spawnTimerDue d now) :=
  inferInstanceAs (Decidable (d.spawnIntervalMs ≤ now - d.lastSpawnAt))

/-- The `Math.random()` draws consumed by one `spawnEnemy` call. -/
structure SpawnRand where
  roll : ℚ
  edgeU : ℚ
  posU : ℚ
  jitterU : ℚ

/-- The draws consumed by one `maybeSpawnEnemies` call (up to three spawns
plus the two extra-spawn probability draws). -/
structure SpawnDraws where
  first : SpawnRand
  extra1 : ℚ
  second : SpawnRand
  extra2 : ℚ
  third : SpawnRand

/-- One `spawnEnemy` call with its draw bundle, threaded through the
pool/difficulty pair. -/
def spawnWith (sqrtA : ℚ → ℚ) (r : SpawnRand) (now : ℚ) (b : Bounds)
    (p : Player) (s : List Enemy × Difficulty) : List Enemy × Difficulty :=
  spawnEnemy sqrtA r.roll r.edgeU r.posU r.jitterU now b p s.1 s.2

/-- `maybeSpawnEnemies(now)`: when the spawn timer is due, spawn once, then
possibly again at level >= 7 (probability 0.30) and at level >= 10
(probability 0.18). -/
def maybeSpawnEnemies (sqrtA : ℚ → ℚ) (dr : SpawnDraws) (now : ℚ) (b : Bounds)
    (p : Player) (es : List Enemy) (d : Difficulty) : List Enemy × Difficulty :=
  if spawnTimerDue d now then
    let s1 := spawnWith sqrtA dr.first now b p (es, d)
    let s2 := if 7 ≤ s1.2.level ∧ dr.extra1 < 3/10 then
        spawnWith sqrtA dr.second now b p s1
      else s1
    if 10 ≤ s2.2.level ∧ dr.extra2 < 9/50 then
      spawnWith sqrtA dr.third now b p s2
    else s2
  else (es, d)

/-- `16.67` ms, the 60 fps baseline used for the `dt` scale. -/
def frameRefMs : ℚ := 1667/100

/-- One slot of `updateEnemies(dt)`: integrate position, deactivate when far
outside the bounds. -/
def updateEnemy (dt : ℚ) (b : Bounds) (e : Enemy) : Enemy :=
  if e.active then
    let scale := dt / frameRefMs
    let x := e.x + e.vx * scale
    let y := e.y + e.vy * scale
    let pad : ℚ := 60
    if x < -pad ∨ x > b.w + pad ∨ y < -pad ∨ y > b.h + pad then
      { e with active := false, x := -999, y := -999 }
    else { e with x := x, y := y }
  else e

/-- `updateEnemies(dt)`. -/
def updateEnemies (dt : ℚ) (b : Bounds) (es : List Enemy) : List Enemy :=
  es.map (updateEnemy dt b)

/-- The per-slot deactivation done by `resetRunState`. -/
def resetEnemySlot (e : Enemy) : Enemy :=
  { e with active := false, x := -999, y := -999, vx := 0, vy := 0 }

/-- `resetRunState`'s `state.enemies.forEach(...)`: deactivate every slot. -/
def resetEnemies (es : List Enemy) : List Enemy :=
  es.map resetEnemySlot

/-- The acceleration intent of `updatePlayer` (lines 634-651): pointer-seek
when mouse follow is on and a pointer is known, otherwise the sum of the
directional flags. -/
def accelIntent (sqrtA : ℚ → ℚ) (mouseFollow : Bool) (i : Input) (p : Player) :
    ℚ × ℚ :=
  if mouseFollow && i.hasMouse then
    let dx := i.mouseX - p.x
    let dy := i.mouseY - p.y
    let len := max (1/1000) (sqrtA (dx * dx + dy * dy))
    (dx / len * playerSpeed, dy / len * playerSpeed)
  else
    ((if i.left then -playerSpeed else 0) + (if i.right then playerSpeed else 0),
     (if i.up then -playerSpeed else 0) + (if i.down then playerSpeed else 0))

/-- The dash block of `updatePlayer` (lines 659-677), applied to the
velocity after acceleration: returns the new `(vx, vy, lastDashAt)`.
`p.vx || 0.001` in the source substitutes `0.001` exactly when the
component is zero. -/
def dashApply (sqrtA : ℚ → ℚ) (now : ℚ) (p : Player) (dashFlag : Bool)
    (vx vy : ℚ) : ℚ × ℚ × ℚ :=
  if dashFlag then
    if dashCooldownMs ≤ now - p.lastDashAt then
      let dx := if vx = 0 then 1/1000 else vx
      let dy := if vy = 0 then 1/1000 else vy
      let len := max (1/1000) (sqrtA (dx * dx + dy * dy))
      (dx / len * dashBurst, dy / len * dashBurst, now)
    else (vx, vy, p.lastDashAt)
  else (vx, vy, p.lastDashAt)

/-- `updatePlayer(dt, now)`: acceleration from intent, dash, friction,
component-wise speed clamp, position integration, boundary clamp.  The
one-shot dash flag consumption (`i.dash = false`) does not touch the player
record and is left implicit. -/
def updatePlayer (sqrtA : ℚ → ℚ) (dt now : ℚ) (mouseFollow : Bool) (i : Input)
    (b : Bounds) (p : Player) : Player :=
  let a := accelIntent sqrtA mouseFollow i p
  let scale := dt / frameRefMs
  let vx1 := p.vx + a.1 * scale
  let vy1 := p.vy + a.2 * scale
  let dres := dashApply sqrtA now p i.dash vx1 vy1
  let vx2 := clamp (dres.1 * friction) (-maxSpeed) maxSpeed
  let vy2 := clamp (dres.2.1 * friction) (-maxSpeed) maxSpeed
  let x1 := clamp (p.x + vx2 * scale) 2 (b.w - p.size - 2)
  let y1 := clamp (p.y + vy2 * scale) 2 (b.h - p.size - 2)
  { p with x := x1, y := y1, vx := vx2, vy := vy2, lastDashAt := dres.2.2 }

/-- `placeOrb`'s `margin = 24`. -/
def orbMargin : ℚ := 24

/-- `placeOrb`'s `minDist = 130`. -/
def orbMinDist : ℚ := 130

/-- The retry loop of `placeOrb`: each try consumes a pair of
`Math.random()` draws; an exhausted list is the fallback path. -/
def placeOrbLoop (b : Bounds) (p : Player) : List (ℚ × ℚ) → Orb
  | [] =>
    { x := clamp (p.x + 150) orbMargin (b.w - orbMargin),
      y := clamp (p.y + 80) orbMargin (b.h - orbMargin) }
  | (ux, uy) :: rest =>
    let x := rand ux orbMargin (b.w - orbMargin)
    let y := rand uy orbMargin (b.h - orbMargin)
    if orbMinDist * orbMinDist ≤ distSq x y p.x p.y then { x := x, y := y }
    else placeOrbLoop b p rest

/-- `placeOrb()`: at most 50 tries, then the deterministic fallback. -/
def placeOrb (draws : List (ℚ × ℚ)) (b : Bounds) (p : Player) : Orb :=
  placeOrbLoop b p (draws.take 50)

/-- `resolveOrbCollection()`: on player/orb AABB overlap, increment the
combo, gain `20 + min(30, combo * 2)` for the incremented combo, add it to
the score, and relocate the orb. -/
def resolveOrbCollection (draws : List (ℚ × ℚ)) (b : Bounds) (p : Player)
    (o : Orb) (d : Difficulty) : Orb × Difficulty :=
  if aabbCollide p.x p.y p.size o.x o.y orbSize then
    let combo := d.combo + 1
    let gained := 20 + min 30 (combo * 2)
    ( placeOrb draws b p,
      { d with combo := combo, score := d.score + gained } )
  else (o, d)

/-- The best-score update of `endGame()`: `best` becomes the score exactly
when the score strictly exceeds the previous best.  The phase/overlay side
of `endGame` lives in the presentation layer and is not part of the
difficulty record. -/
def endGame (d : Difficulty) : Difficulty :=
  if d.best < d.score then { d with best := d.score } else d

/-- The per-slot test of `resolveEnemyCollisions`: active and overlapping
the player. -/
def enemyHits (p : Player) (e : Enemy) : Bool :=
  e.active && aabbCollide p.x p.y p.size e.x e.y e.size

/-- The knockback applied on a hit (skipped under reduced motion). -/
def hitKnockback (reducedMotion : Bool) (p : Player) : Player :=
  if reducedMotion then p
  else { p with vx := p.vx * (-7/10), vy := p.vy * (-7/10) }

/-- The difficulty update on a hit: lose a life, reset the combo, and run
`endGame` when no lives remain. -/
def hitDifficulty (d : Difficulty) : Difficulty :=
  let d1 := { d with lives := d.lives - 1, combo := 0 }
  if d1.lives ≤ 0 then endGame d1 else d1

/-- `resolveEnemyCollisions()`: scan the slots in pool order; on the first
active overlapping slot, deactivate it, apply the hit, and return — later
slots are not examined. -/
def resolveEnemyCollisions (reducedMotion : Bool) (p : Player) (d : Difficulty) :
    List Enemy → Player × Difficulty × List Enemy
  | [] => (p, d, [])
  | e :: es =>
    if enemyHits p e then
      (hitKnockback reducedMotion p, hitDifficulty d,
       { e with active := false } :: es)
    else
      let r := resolveEnemyCollisions reducedMotion p d es
      (r.1, r.2.1, e :: r.2.2)

/-- The difficulty part of `resetRunState()`; note `best` is untouched. -/
def resetDifficulty (d : Difficulty) : Difficulty :=
  { d with
    score := 0, lives := 3, combo := 0, level := 1,
    enemyBaseSpeed := 17/10, spawnIntervalMs := 950, lastSpawnAt := 0,
    nextLevelAt := 200 }

/-- The player part of `resetRunState()`: centered, at rest, dash reset. -/
def resetPlayer (b : Bounds) (p : Player) : Player :=
  { p with x := b.w / 2, y := b.h / 2, vx := 0, vy := 0, lastDashAt := 0 }

/-- `resetRunState()`. -/
def resetRunState (draws : List (ℚ × ℚ)) (b : Bounds) (p : Player)
    (d : Difficulty) (es : List Enemy) :
    Player × Difficulty × List Enemy × Orb :=
  let p' := resetPlayer b p
  (p', resetDifficulty d, resetEnemies es, placeOrb draws b p')

/-- The phase/run-flag/frame-timestamp state relevant to the loop timing. -/
structure TimedPhase where
  phase : Phase
  running : Bool
  lastFrame : ℚ
deriving DecidableEq, Repr

/-- The elapsed-time computation at the top of `loop(now)`:
`last = t.lastFrame || now` (the `||` substitutes `now` exactly when
`lastFrame` is `0`), then `dt = clamp(now - last, 0, 40)`. -/
def frameDt (lastFrame now : ℚ) : ℚ :=
  let last := if lastFrame = 0 then now else lastFrame
  clamp (now - last) 0 40

/-- One invocation of `loop(now)` restricted to its timing effect: when the
phase is `play` and the game is running, a frame runs with `frameDt` and
`lastFrame` is set to `now`; otherwise the loop returns at once.  The first
component is the `dt` the frame ran with (`none` when no frame ran). -/
def loopStep (s : TimedPhase) (now : ℚ) : Option ℚ × TimedPhase :=
  if s.phase = Phase.play ∧ s.running then
    (some (frameDt s.lastFrame now), { s with lastFrame := now })
  else (none, s)

/-- `togglePause()` invoked at time `now`: pausing from `play` stops the
loop; resuming from `pause` flips back to `play` and synchronously calls
`loop(performance.now())` — no write to `time.lastFrame` happens before
that loop body runs. -/
def togglePause (s : TimedPhase) (now : ℚ) : Option ℚ × TimedPhase :=
  if s.phase = Phase.play then
    (none, { s with phase := Phase.pause, running := false })
  else if s.phase = Phase.pause then
    loopStep { s with phase := Phase.play, running := true } now
  else (none, s)

/-- The timing effect of `startGame()` (also the play-again path from
`over`): set `play`/running and synchronously call `loop(performance.now())`;
`resetRunState` does not touch `time.lastFrame`. -/
def startGameTiming (s : TimedPhase) (now : ℚ) : Option ℚ × TimedPhase :=
  loopStep { s with phase := Phase.play, running := true } now

/-- The operations that touch the enemy pool: spawn attempts, per-frame
ticks, and run resets, each carrying the ambient data it reads. -/
inductive PoolOp where
  | spawn (sqrtA : ℚ → ℚ) (roll edgeU posU jitterU now : ℚ) (b : Bounds) (p : Player)
  | tick (dt : ℚ) (b : Bounds)
  | reset

/-- Apply one pool operation to the pool/difficulty pair. -/
def applyPoolOp (op : PoolOp) (s : List Enemy × Difficulty) :
    List Enemy × Difficulty :=
  match op with
  | PoolOp.spawn sqrtA roll edgeU posU jitterU now b p =>
    spawnEnemy sqrtA roll edgeU posU jitterU now b p s.1 s.2
  | PoolOp.tick dt b => (updateEnemies dt b s.1, s.2)
  | PoolOp.reset => (resetEnemies s.1, s.2)

/-- Apply a sequence of pool operations in order. -/
def applyPoolOps (ops : List PoolOp) (s : List Enemy × Difficulty) :
    List Enemy × Difficulty :=
  ops.foldl (fun acc op => applyPoolOp op acc) s

/-- The number of active slots of a pool. -/
def countActive (es : List Enemy) : ℕ :=
  (es.filter (fun e => e.active)).length

/-! Concrete fixtures used to evaluate the theorems below on explicit
inputs. -/

/-- A trivial stand-in for the abstracted `Math.sqrt` parameter. -/
def sqrtZero : ℚ → ℚ := fun _ => 0

/-- A concrete playfield. -/
def sampleBounds : Bounds := { w := 800, h := 600 }

/-- A concrete player at rest. -/
def samplePlayer : Player :=
  { x := 100, y := 100, vx := 0, vy := 0, size := 24, lastDashAt := 0 }

/-- A player whose velocity components sit exactly at the clamp bound; this
is a post-update state (a diagonal dash followed by friction and the clamp
produces exactly these components). -/
def sampleFastPlayer : Player := { samplePlayer with vx := 26/5, vy := 26/5 }

/-- An orb overlapping `samplePlayer`. -/
def sampleOrb : Orb := { x := 110, y := 110 }

/-- The initial difficulty record (the values of `state.difficulty`). -/
def sampleDifficulty : Difficulty :=
  { level := 1, score := 0, lives := 3, combo := 0, best := 0,
    spawnIntervalMs := 950, lastSpawnAt := 0, enemyBaseSpeed := 17/10,
    nextLevelAt := 200 }

/-- The initial difficulty with the score at the first threshold. -/
def sampleDifficultyAt200 : Difficulty := { sampleDifficulty with score := 200 }

/-- An active enemy overlapping `samplePlayer`. -/
def sampleEnemy : Enemy :=
  { active := true, x := 100, y := 100, vx := 1, vy := 0,
    size := 18, type := EnemyType.normal }

/-- Idle input intent. -/
def sampleInput : Input :=
  { up := false, down := false, left := false, right := false, dash := false,
    mouseX := 0, mouseY := 0, hasMouse := false }

/-- A zero draw bundle for `maybeSpawnEnemies`. -/
def sampleDraws : SpawnDraws :=
  { first := ⟨0, 0, 0, 0⟩, extra1 := 0, second := ⟨0, 0, 0, 0⟩,
    extra2 := 0, third := ⟨0, 0, 0, 0⟩ }

/-! Shared helper lemmas. -/

/-- `clamp` lands in `[lo, hi]` whenever the interval is nonempty. -/
theorem clamp_bounds (v lo hi : ℚ) (h : lo ≤ hi) :
    lo ≤ clamp v lo hi ∧ clamp v lo hi ≤ hi :=
  ⟨le_max_left lo _, max_le h (min_le_left hi v)⟩

/-- A successful `spawnIntoPool` preserves the pool length. -/
theorem spawnIntoPool_length (mk : Enemy → Enemy) :
    ∀ es es' : List Enemy, spawnIntoPool mk es = some es' →
      es'.length = es.length := by
  intro es
  induction es with
  | nil => intro es' h; simp [spawnIntoPool] at h
  | cons e tl ih =>
    intro es' h
    by_cases ha : e.active
    · simp only [spawnIntoPool, ha, if_true, Option.map_eq_some'] at h
      obtain ⟨tl', htl, rfl⟩ := h
      simp [ih tl' htl]
    · simp only [spawnIntoPool, ha, if_false] at h
      cases h
      simp

/-- A saturated pool has no inactive slot for `spawnIntoPool` to take. -/
theorem spawnIntoPool_saturated (mk : Enemy → Enemy) :
    ∀ es : List Enemy, (∀ e ∈ es, e.active = true) →
      spawnIntoPool mk es = none := by
  intro es
  induction es with
  | nil => intro _; rfl
  | cons e tl ih =>
    intro h
    have ha : e.active = true := h e (List.mem_cons_self e tl)
    have htl : spawnIntoPool mk tl = none :=
      ih fun e' he' => h e' (List.mem_cons_of_mem e he')
    simp [spawnIntoPool, ha, htl]

/-- `spawnEnemy` never changes the pool length. -/
theorem spawnEnemy_length (sqrtA : ℚ → ℚ) (roll edgeU posU jitterU now : ℚ)
    (b : Bounds) (p : Player) (es : List Enemy) (d : Difficulty) :
    (spawnEnemy sqrtA roll edgeU posU jitterU now b p es d).1.length
      = es.length := by
  unfold spawnEnemy
  cases h : spawnIntoPool (mkSpawnedEnemy sqrtA roll edgeU posU jitterU b p d) es with
  | none => rfl
  | some es' => exact spawnIntoPool_length _ es es' h

/-- On a saturated pool, `spawnEnemy` is the identity. -/
theorem spawnEnemy_saturated (sqrtA : ℚ → ℚ) (roll edgeU posU jitterU now : ℚ)
    (b : Bounds) (p : Player) (es : List Enemy) (d : Difficulty)
    (h : ∀ e ∈ es, e.active = true) :
    spawnEnemy sqrtA roll edgeU posU jitterU now b p es d = (es, d) := by
  unfold spawnEnemy
  rw [spawnIntoPool_saturated _ es h]

/-- Every pool operation preserves the pool length. -/
theorem applyPoolOp_length (op : PoolOp) (s : List Enemy × Difficulty) :
    (applyPoolOp op s).1.length = s.1.length := by
  cases op with
  | spawn sqrtA roll edgeU posU jitterU now b p => exact spawnEnemy_length ..
  | tick dt b => simp [applyPoolOp, updateEnemies]
  | reset => simp [applyPoolOp, resetEnemies]

/-- Sequences of pool operations preserve the pool length. -/
theorem applyPoolOps_length :
    ∀ (ops : List PoolOp) (s : List Enemy × Difficulty),
      (applyPoolOps ops s).1.length = s.1.length := by
  intro ops
  induction ops with
  | nil => intro s; rfl
  | cons op tl ih =>
    intro s
    have h : applyPoolOps (op :: tl) s = applyPoolOps tl (applyPoolOp op s) := rfl
    rw [h, ih, applyPoolOp_length]

/-- The active count is at most the pool length. -/
theorem countActive_le_length (es : List Enemy) : countActive es ≤ es.length :=
  List.length_filter_le _ es

/-- A hit decrements `lives` by exactly one and zeroes the combo (the
`endGame` branch touches only `best`). -/
theorem hitDifficulty_fields (d : Difficulty) :
    (hitDifficulty d).lives = d.lives - 1 ∧ (hitDifficulty d).combo = 0 := by
  unfold hitDifficulty endGame
  dsimp only
  split_ifs <;> simp

/-- `best` never decreases across a hit. -/
theorem hitDifficulty_best_mono (d : Difficulty) :
    d.best ≤ (hitDifficulty d).best := by
  unfold hitDifficulty endGame
  dsimp only
  split_ifs with h1 h2 <;> simp
  exact le_of_lt h2

/-- The player's updated `vx` is the clamp of the post-friction value. -/
theorem updatePlayer_vx_bounds (sqrtA : ℚ → ℚ) (dt now : ℚ) (mf : Bool)
    (i : Input) (b : Bounds) (p : Player) :
    -maxSpeed ≤ (updatePlayer sqrtA dt now mf i b p).vx ∧
      (updatePlayer sqrtA dt now mf i b p).vx ≤ maxSpeed := by
  have h : (updatePlayer sqrtA dt now mf i b p).vx =
      clamp ((dashApply sqrtA now p i.dash
          (p.vx + (accelIntent sqrtA mf i p).1 * (dt / frameRefMs))
          (p.vy + (accelIntent sqrtA mf i p).2 * (dt / frameRefMs))).1 * friction)
        (-maxSpeed) maxSpeed := rfl
  rw [h]
  exact clamp_bounds _ _ _ (by norm_num [maxSpeed])

/-- The player's updated `vy` is the clamp of the post-friction value. -/
theorem updatePlayer_vy_bounds (sqrtA : ℚ → ℚ) (dt now : ℚ) (mf : Bool)
    (i : Input) (b : Bounds) (p : Player) :
    -maxSpeed ≤ (updatePlayer sqrtA dt now mf i b p).vy ∧
      (updatePlayer sqrtA dt now mf i b p).vy ≤ maxSpeed := by
  have h : (updatePlayer sqrtA dt now mf i b p).vy =
      clamp ((dashApply sqrtA now p i.dash
          (p.vx + (accelIntent sqrtA mf i p).1 * (dt / frameRefMs))
          (p.vy + (accelIntent sqrtA mf i p).2 * (dt / frameRefMs))).2.1 * friction)
        (-maxSpeed) maxSpeed := rfl
  rw [h]
  exact clamp_bounds _ _ _ (by norm_num [maxSpeed])

/-! Claim theorems. -/

/-- C1 (counterexample to the claim as stated): with the combo at `0`
before the pickup, the claimed formula `20 + min(30, combo*2)` for the
pre-increment combo value gives `20`, but the code adds `22` to the score,
because `resolveOrbCollection` increments the combo before computing the
gain. -/
theorem C1_counterexample :
    (resolveOrbCollection [] sampleBounds samplePlayer sampleOrb sampleDifficulty).2.score
        - sampleDifficulty.score = 22 ∧
      20 + min 30 (sampleDifficulty.combo * 2) = 20 ∧ (22 : ℤ) ≠ 20 := by
  refine ⟨?_, by norm_num [sampleDifficulty], by norm_num⟩
  norm_num [resolveOrbCollection, aabbCollide, samplePlayer, sampleOrb, orbSize,
    sampleDifficulty, sampleBounds]

/-- C1 (amended): on every orb pickup (player/orb AABB overlap), the combo
is incremented and the score gained equals `20 + min(30, combo*2)` for the
combo value immediately AFTER the increment. -/
theorem C1_orb_pickup_score (draws : List (ℚ × ℚ)) (b : Bounds) (p : Player)
    (o : Orb) (d : Difficulty)
    (h : aabbCollide p.x p.y p.size o.x o.y orbSize = true) :
    (resolveOrbCollection draws b p o d).2.combo = d.combo + 1 ∧
      (resolveOrbCollection draws b p o d).2.score
        = d.score + (20 + min 30 ((d.combo + 1) * 2)) := by
  simp [resolveOrbCollection, h]

/-- C1 witness: a pickup at combo 3 gains `20 + min(30, 4*2) = 28`. -/
theorem C1_orb_pickup_score_witness :
    (resolveOrbCollection [] sampleBounds samplePlayer sampleOrb
        { sampleDifficulty with combo := 3, score := 50 }).2.combo
      = { sampleDifficulty with combo := 3, score := 50 }.combo + 1 ∧
    (resolveOrbCollection [] sampleBounds samplePlayer sampleOrb
        { sampleDifficulty with combo := 3, score := 50 }).2.score
      = { sampleDifficulty with combo := 3, score := 50 }.score
        + (20 + min 30 (({ sampleDifficulty with combo := 3, score := 50 }.combo + 1) * 2)) :=
  C1_orb_pickup_score [] sampleBounds samplePlayer sampleOrb
    { sampleDifficulty with combo := 3, score := 50 }
    (by norm_num [aabbCollide, samplePlayer, sampleOrb, orbSize])

/-- C2: starting from the initialized pool, any sequence of spawn, tick and
reset operations keeps the number of active slots at or below the fixed
pool capacity 22; and a spawn call that finds no inactive slot changes
nothing at all. -/
theorem C2_pool_capacity (ops : List PoolOp) (d : Difficulty) :
    countActive (applyPoolOps ops (initEnemyPool, d)).1 ≤ enemyPoolSize ∧
    (∀ (sqrtA : ℚ → ℚ) (roll edgeU posU jitterU now : ℚ) (b : Bounds)
        (p : Player) (es : List Enemy) (d' : Difficulty),
      (∀ e ∈ es, e.active = true) →
      spawnEnemy sqrtA roll edgeU posU jitterU now b p es d' = (es, d')) := by
  constructor
  · have h1 := countActive_le_length (applyPoolOps ops (initEnemyPool, d)).1
    have h2 : (applyPoolOps ops (initEnemyPool, d)).1.length = initEnemyPool.length :=
      applyPoolOps_length ops (initEnemyPool, d)
    have h3 : initEnemyPool.length = enemyPoolSize := by
      simp [initEnemyPool]
    omega
  · intro sqrtA roll edgeU posU jitterU now b p es d' h
    exact spawnEnemy_saturated _ _ _ _ _ _ _ _ _ _ h

/-- C2 witness: one reset keeps the count within capacity, and a spawn on a
fully active one-slot pool is dropped without any change. -/
theorem C2_pool_capacity_witness :
    countActive (applyPoolOps [PoolOp.reset] (initEnemyPool, sampleDifficulty)).1
        ≤ enemyPoolSize ∧
      spawnEnemy sqrtZero 0 0 0 0 1000 sampleBounds samplePlayer [sampleEnemy]
        sampleDifficulty = ([sampleEnemy], sampleDifficulty) :=
  ⟨(C2_pool_capacity [PoolOp.reset] sampleDifficulty).1,
   (C2_pool_capacity [PoolOp.reset] sampleDifficulty).2 sqrtZero 0 0 0 0 1000
     sampleBounds samplePlayer [sampleEnemy] sampleDifficulty
     (by intro e he; rw [List.mem_singleton] at he; rw [he]; rfl)⟩

/-- C3: a level transition occurs iff `score >= nextLevelAt`; at most one
level-up happens per check; on a level-up the level increases by exactly 1,
the threshold becomes `floor(nextLevelAt * 1.35 + 120)`, the enemy base
speed grows by 0.15 capped at 4.2, and the spawn interval shrinks by 40
floored at 420; otherwise nothing changes. -/
theorem C3_difficulty_scaling (d : Difficulty) :
    ((scaleDifficultyOnScore d).level = d.level + 1 ↔ d.nextLevelAt ≤ d.score) ∧
    (scaleDifficultyOnScore d).level ≤ d.level + 1 ∧
    (d.nextLevelAt ≤ d.score →
      scaleDifficultyOnScore d =
        { d with
          level := d.level + 1
          nextLevelAt := Rat.floor ((d.nextLevelAt : ℚ) * (27/20) + 120)
          enemyBaseSpeed := min (21/5) (d.enemyBaseSpeed + 3/20)
          spawnIntervalMs := max 420 (d.spawnIntervalMs - 40) }) ∧
    (d.score < d.nextLevelAt → scaleDifficultyOnScore d = d) := by
  by_cases h : d.nextLevelAt ≤ d.score
  · refine ⟨?_, ?_, fun _ => ?_, fun hc => absurd h (not_le.mpr hc)⟩ <;>
      simp [scaleDifficultyOnScore, h]
  · refine ⟨?_, ?_, fun hc => absurd hc h, fun _ => ?_⟩ <;>
      simp [scaleDifficultyOnScore, h]

/-- C3 witness: at the initial threshold 200 with score 200, the check
levels up to 2, threshold 390, speed 1.85, interval 910. -/
theorem C3_difficulty_scaling_witness :
    (scaleDifficultyOnScore sampleDifficultyAt200).level
        = sampleDifficultyAt200.level + 1 ∧
      scaleDifficultyOnScore sampleDifficultyAt200 =
        { sampleDifficultyAt200 with
          level := 2
          nextLevelAt := 390
          enemyBaseSpeed := 37/20
          spawnIntervalMs := 910 } := by
  have h := (C3_difficulty_scaling sampleDifficultyAt200).2.2.1
    (by norm_num [sampleDifficultyAt200, sampleDifficulty])
  refine ⟨(C3_difficulty_scaling sampleDifficultyAt200).1.mpr
    (by norm_num [sampleDifficultyAt200, sampleDifficulty]), ?_⟩
  rw [h]
  norm_num [sampleDifficultyAt200, sampleDifficulty]
  rw [show Rat.floor (390:ℚ) = ⌊(390:ℚ)⌋ from rfl,
    show ((390:ℚ)) = ((390:ℤ):ℚ) by norm_num, Int.floor_intCast]

/-- C4: when the pool contains a first overlapping active slot `e` (all
earlier slots miss), exactly that slot is deactivated, lives drop by
exactly one, the combo becomes zero, and every other slot — including later
overlapping ones — is left unchanged. -/
theorem C4_single_hit (rm : Bool) (p : Player) (d : Difficulty)
    (es₁ : List Enemy) (e : Enemy) (es₂ : List Enemy)
    (h₁ : ∀ e' ∈ es₁, enemyHits p e' = false) (h : enemyHits p e = true) :
    resolveEnemyCollisions rm p d (es₁ ++ e :: es₂) =
      (hitKnockback rm p, hitDifficulty d,
        es₁ ++ { e with active := false } :: es₂) ∧
    (hitDifficulty d).lives = d.lives - 1 ∧ (hitDifficulty d).combo = 0 := by
  refine ⟨?_, hitDifficulty_fields d⟩
  induction es₁ with
  | nil => simp [resolveEnemyCollisions, h]
  | cons a tl ih =>
    have ha : enemyHits p a = false := h₁ a (List.mem_cons_self a tl)
    have htl : ∀ e' ∈ tl, enemyHits p e' = false :=
      fun e' he' => h₁ e' (List.mem_cons_of_mem a he')
    have hrec := ih htl
    simp [resolveEnemyCollisions, ha, hrec]

/-- C4 witness: two identical overlapping active slots; only the first is
deactivated and the second survives the frame unchanged. -/
theorem C4_single_hit_witness :
    resolveEnemyCollisions false samplePlayer sampleDifficulty
        ([] ++ sampleEnemy :: [sampleEnemy]) =
      (hitKnockback false samplePlayer, hitDifficulty sampleDifficulty,
        [] ++ { sampleEnemy with active := false } :: [sampleEnemy]) ∧
    (hitDifficulty sampleDifficulty).lives = sampleDifficulty.lives - 1 ∧
    (hitDifficulty sampleDifficulty).combo = 0 :=
  C4_single_hit false samplePlayer sampleDifficulty [] sampleEnemy [sampleEnemy]
    (by intro e' he'; cases he')
    (by norm_num [enemyHits, aabbCollide, samplePlayer, sampleEnemy])

/-- C5: after every player update — for every input intent, including a
successful dash whose burst magnitude 9.0 exceeds `maxSpeed` — each
velocity component lies within `[-maxSpeed, maxSpeed] = [-5.2, 5.2]`. -/
theorem C5_velocity_components_clamped (sqrtA : ℚ → ℚ) (dt now : ℚ) (mf : Bool)
    (i : Input) (b : Bounds) (p : Player) :
    maxSpeed = 26/5 ∧
    -maxSpeed ≤ (updatePlayer sqrtA dt now mf i b p).vx ∧
      (updatePlayer sqrtA dt now mf i b p).vx ≤ maxSpeed ∧
      -maxSpeed ≤ (updatePlayer sqrtA dt now mf i b p).vy ∧
      (updatePlayer sqrtA dt now mf i b p).vy ≤ maxSpeed :=
  ⟨rfl, (updatePlayer_vx_bounds sqrtA dt now mf i b p).1,
   (updatePlayer_vx_bounds sqrtA dt now mf i b p).2,
   (updatePlayer_vy_bounds sqrtA dt now mf i b p).1,
   (updatePlayer_vy_bounds sqrtA dt now mf i b p).2⟩

/-- C6 (counterexample to the claim as stated): the clamp is per component,
so from the reachable state with both components at the clamp bound 5.2
(produced by a diagonal dash, friction and the clamp), one further update
with idle input leaves a velocity of magnitude `4.576 * sqrt 2 > 5.2`:
the squared magnitude exceeds `maxSpeed ^ 2`. -/
theorem C6_counterexample :
    (updatePlayer sqrtZero frameRefMs 0 false sampleInput sampleBounds
          sampleFastPlayer).vx ^ 2
        + (updatePlayer sqrtZero frameRefMs 0 false sampleInput sampleBounds
          sampleFastPlayer).vy ^ 2
      > maxSpeed ^ 2 := by
  norm_num [updatePlayer, accelIntent, dashApply, clamp, sampleInput, sampleBounds,
    sampleFastPlayer, samplePlayer, sqrtZero, frameRefMs, playerSpeed, maxSpeed,
    friction, dashBurst, dashCooldownMs]

/-- C6 (amended): the component-wise clamp only bounds the squared
Euclidean magnitude of the velocity by `2 * maxSpeed ^ 2` (that is, the
magnitude by `maxSpeed * sqrt 2`), after every update. -/
theorem C6_speed_magnitude_bound (sqrtA : ℚ → ℚ) (dt now : ℚ) (mf : Bool)
    (i : Input) (b : Bounds) (p : Player) :
    (updatePlayer sqrtA dt now mf i b p).vx ^ 2
        + (updatePlayer sqrtA dt now mf i b p).vy ^ 2 ≤ 2 * maxSpeed ^ 2 := by
  obtain ⟨h1, h2⟩ := updatePlayer_vx_bounds sqrtA dt now mf i b p
  obtain ⟨h3, h4⟩ := updatePlayer_vy_bounds sqrtA dt now mf i b p
  have hx := sq_le_sq' h1 h2
  have hy := sq_le_sq' h3 h4
  linarith

/-- C7 (counterexample to the claim as stated): resuming from pause at time
5000 with the pre-pause baseline 1000 runs the first frame with elapsed
time 40 — the clamped tail of the 4000 ms spent paused — not 0; no code
path resets `time.lastFrame` before that first frame body runs. -/
theorem C7_counterexample :
    (togglePause { phase := Phase.pause, running := false, lastFrame := 1000 } 5000).1
        = some 40 ∧
      (togglePause { phase := Phase.pause, running := false, lastFrame := 1000 } 5000).2.lastFrame
        = 5000 ∧ (40 : ℚ) ≠ 0 := by
  have hq : togglePause { phase := Phase.pause, running := false, lastFrame := 1000 } 5000
      = (some 40, { phase := Phase.play, running := true, lastFrame := 5000 }) := by
    simp only [togglePause, loopStep, frameDt, clamp]
    norm_num [min_def, max_def]
    decide
  rw [hq]
  refine ⟨rfl, rfl, by norm_num⟩

/-- C7 (amended): resuming from pause (and the play-again path) immediately
runs one loop frame at the current time: that frame computes its elapsed
time from the stale pre-pause baseline but clamps it into `[0, 40]`, and
sets `lastFrame` to the current time, so the following frame measures from
the resume time and no large elapsed-time spike occurs. -/
theorem C7_resume_timing (s : TimedPhase) (now now2 : ℚ)
    (hp : s.phase = Phase.pause) (hnz : now ≠ 0) :
    (togglePause s now).2.lastFrame = now ∧
    (togglePause s now).1
      = some (clamp (now - (if s.lastFrame = 0 then now else s.lastFrame)) 0 40) ∧
    (∀ dtv : ℚ, (togglePause s now).1 = some dtv → 0 ≤ dtv ∧ dtv ≤ 40) ∧
    (loopStep (togglePause s now).2 now2).1 = some (clamp (now2 - now) 0 40) ∧
    (startGameTiming s now).2.lastFrame = now := by
  have hq : togglePause s now =
      (some (frameDt s.lastFrame now),
        { s with phase := Phase.play, running := true, lastFrame := now }) := by
    simp [togglePause, hp, loopStep]
  refine ⟨by rw [hq], by rw [hq]; rfl, fun dtv hd => ?_, ?_,
    by simp [startGameTiming, loopStep]⟩
  · rw [hq] at hd
    have hv : frameDt s.lastFrame now = dtv := Option.some.inj hd
    rw [← hv]
    exact clamp_bounds _ _ _ (by norm_num)
  · rw [hq]
    simp [loopStep, frameDt, hnz]

/-- C7 witness: resuming `(pause, lastFrame 1000)` at time 5000 sets the
baseline to 5000, and the next frame at 5016 sees `clamp (16) 0 40`. -/
theorem C7_resume_timing_witness :
    (togglePause { phase := Phase.pause, running := false, lastFrame := 1000 } 5000).2.lastFrame
        = 5000 ∧
      (loopStep (togglePause { phase := Phase.pause, running := false, lastFrame := 1000 } 5000).2
          5016).1 = some (clamp (5016 - 5000) 0 40) := by
  have h := C7_resume_timing { phase := Phase.pause, running := false, lastFrame := 1000 }
    5000 5016 rfl (by norm_num)
  exact ⟨h.1, h.2.2.2.1⟩

/-- C8 (counterexample to the claim as stated): the fast and heavy checks
share one `Math.random()` draw, so they are not independent: there is no
roll for which the fast condition (`roll < 0.25` at level >= 4) holds while
the spawn resolves to `heavy` — the claimed "both conditions roll true,
heavy overrides fast" situation is impossible. -/
theorem C8_counterexample :
    ¬ ∃ roll : ℚ, ((4:ℤ) ≤ 6 ∧ roll < 1/4) ∧ chooseType 6 roll = EnemyType.heavy := by
  rintro ⟨roll, ⟨-, hf⟩, hh⟩
  unfold chooseType at hh
  dsimp only at hh
  by_cases h1 : (6:ℤ) ≤ 6 ∧ roll > 43/50
  · exact absurd hf (not_lt.mpr (by linarith [h1.2]))
  · rw [if_neg h1] at hh
    by_cases h2 : (4:ℤ) ≤ 6 ∧ roll < 1/4
    · rw [if_pos h2] at hh; exact EnemyType.noConfusion hh
    · rw [if_neg h2] at hh; exact EnemyType.noConfusion hh

/-- C8 (amended): one shared draw per spawn decides the type: below level 4
always normal; from level 4 a draw below 0.25 yields fast; from level 6 a
draw above 0.86 yields heavy (taking precedence in the code order); the two
conditions are mutually exclusive, so no spawn ever rolls both. -/
theorem C8_type_selection (level : ℤ) (roll : ℚ) :
    (level < 4 → chooseType level roll = EnemyType.normal) ∧
    (4 ≤ level → roll < 1/4 → chooseType level roll = EnemyType.fast) ∧
    (6 ≤ level → 43/50 < roll → chooseType level roll = EnemyType.heavy) ∧
    ¬(roll < 1/4 ∧ 43/50 < roll) := by
  refine ⟨fun h => ?_, fun h hf => ?_, fun h hh => ?_,
    fun hc => by linarith [hc.1, hc.2]⟩
  · have hh1 : ¬(6 ≤ level ∧ roll > 43/50) := fun hc => absurd hc.1 (by omega)
    have ht1 : ¬(4 ≤ level ∧ roll < 1/4) := fun hc => absurd hc.1 (by omega)
    unfold chooseType
    dsimp only
    rw [if_neg hh1, if_neg ht1]
  · have hh1 : ¬(6 ≤ level ∧ roll > 43/50) := fun hc => by linarith [hc.2]
    unfold chooseType
    dsimp only
    rw [if_neg hh1, if_pos ⟨h, hf⟩]
  · unfold chooseType
    dsimp only
    rw [if_pos ⟨h, hh⟩]

/-- C8 witness: level 3 with roll 0.1 spawns normal; level 4 with roll 0.1
spawns fast; level 6 with roll 0.9 spawns heavy. -/
theorem C8_type_selection_witness :
    chooseType 3 (1/10) = EnemyType.normal ∧
      chooseType 4 (1/10) = EnemyType.fast ∧
      chooseType 6 (9/10) = EnemyType.heavy :=
  ⟨(C8_type_selection 3 (1/10)).1 (by norm_num),
   (C8_type_selection 4 (1/10)).2.1 le_rfl (by norm_num),
   (C8_type_selection 6 (9/10)).2.2.1 le_rfl (by norm_num)⟩

/-- C9: when every pool slot is active, a spawn attempt leaves the whole
pool/difficulty state unchanged — in particular `lastSpawnAt` — so a due
spawn timer stays due at every later tick and the spawn is re-attempted
until a slot frees up. -/
theorem C9_saturated_spawn (sqrtA : ℚ → ℚ) (dr : SpawnDraws) (now now2 : ℚ)
    (b : Bounds) (p : Player) (es : List Enemy) (d : Difficulty)
    (hfull : ∀ e ∈ es, e.active = true) :
    maybeSpawnEnemies sqrtA dr now b p es d = (es, d) ∧
    (maybeSpawnEnemies sqrtA dr now b p es d).2.lastSpawnAt = d.lastSpawnAt ∧
    (spawnTimerDue d now → now ≤ now2 → spawnTimerDue d now2) := by
  have hs : ∀ r : SpawnRand, spawnWith sqrtA r now b p (es, d) = (es, d) := fun r =>
    spawnEnemy_saturated _ _ _ _ _ _ _ _ _ _ hfull
  have hmain : maybeSpawnEnemies sqrtA dr now b p es d = (es, d) := by
    unfold maybeSpawnEnemies
    split
    · simp [hs]
    · rfl
  refine ⟨hmain, by rw [hmain], fun h1 h2 => ?_⟩
  unfold spawnTimerDue at h1 ⊢
  linarith

/-- C9 witness: a single-slot saturated pool drops the spawn at time 1000
with no change, and the timer that was due at 1000 is still due at 2000. -/
theorem C9_saturated_spawn_witness :
    maybeSpawnEnemies sqrtZero sampleDraws 1000 sampleBounds samplePlayer
        [sampleEnemy] sampleDifficulty = ([sampleEnemy], sampleDifficulty) ∧
      spawnTimerDue sampleDifficulty 2000 := by
  have h := C9_saturated_spawn sqrtZero sampleDraws 1000 2000 sampleBounds
    samplePlayer [sampleEnemy] sampleDifficulty
    (by intro e he; rw [List.mem_singleton] at he; rw [he]; rfl)
  exact ⟨h.1, h.2.2 (by norm_num [spawnTimerDue, sampleDifficulty]) (by norm_num)⟩

/-- C10: within a session the best score never decreases: the only write is
at game over, where it becomes `max best score` (the score exactly when it
strictly exceeds the old best), and reset, pickups, difficulty scaling,
spawning and enemy hits all leave it unchanged or raise it. -/
theorem C10_best_monotone :
    (∀ d : Difficulty, (endGame d).best = max d.best d.score) ∧
    (∀ d : Difficulty, d.best ≤ (endGame d).best) ∧
    (∀ d : Difficulty, (resetDifficulty d).best = d.best) ∧
    (∀ (draws : List (ℚ × ℚ)) (b : Bounds) (p : Player) (o : Orb) (d : Difficulty),
      (resolveOrbCollection draws b p o d).2.best = d.best) ∧
    (∀ d : Difficulty, (scaleDifficultyOnScore d).best = d.best) ∧
    (∀ (sqrtA : ℚ → ℚ) (roll edgeU posU jitterU now : ℚ) (b : Bounds) (p : Player)
        (es : List Enemy) (d : Difficulty),
      (spawnEnemy sqrtA roll edgeU posU jitterU now b p es d).2.best = d.best) ∧
    (∀ (rm : Bool) (p : Player) (d : Difficulty) (es : List Enemy),
      d.best ≤ (resolveEnemyCollisions rm p d es).2.1.best) := by
  refine ⟨fun d => ?_, fun d => ?_, fun d => rfl, fun draws b p o d => ?_, fun d => ?_,
    fun sqrtA roll edgeU posU jitterU now b p es d => ?_, fun rm p d es => ?_⟩
  · unfold endGame; split_ifs with h
    · exact (max_eq_right h.le).symm
    · exact (max_eq_left (not_lt.mp h)).symm
  · unfold endGame; split_ifs with h
    · exact h.le
    · exact le_rfl
  · unfold resolveOrbCollection; split_ifs <;> rfl
  · unfold scaleDifficultyOnScore; split_ifs <;> rfl
  · unfold spawnEnemy
    cases spawnIntoPool (mkSpawnedEnemy sqrtA roll edgeU posU jitterU b p d) es <;> rfl
  · induction es with
    | nil => exact le_rfl
    | cons e tl ih =>
      by_cases he : enemyHits p e
      · simpa [resolveEnemyCollisions, he] using hitDifficulty_best_mono d
      · simpa [resolveEnemyCollisions, he] using ih

end NeonDrift
